import Mathlib

/-!
Verification of the EcoLens predator-prey-resource simulator
(src/ecolens.py, function run_sim and its helpers), over a shallow
embedding in Lean 4. Machine floats of the Python source are modelled by
exact rationals; the stream of values produced by the Python random module
is modelled by an explicit function from draw index to a rational in the
unit interval, consumed in the exact order of the source; math.sin(day/10.0)
is an external library function and enters the embedding as an explicit
per-day sequence parameter.
-/

set_option maxHeartbeats 1600000

/-- One organism: metabolic energy reserve and heritable foraging
efficiency. Mirrors class Individual (ecolens.py lines 21-24). -/
structure Individual where
  energy : ℚ
  efficiency : ℚ
deriving DecidableEq, Repr

/-- The keyword parameters of run_sim (ecolens.py lines 26-38). Integer
parameters are modelled as integers, floats as rationals. -/
structure Config where
  days : ℤ
  init_prey : ℤ
  init_pred : ℤ
  init_resource : ℚ
  resource_regen : ℚ
  prey_consumption : ℚ
  pred_consumption : ℚ
  prey_repro_thresh : ℚ
  pred_repro_thresh : ℚ
  prey_mut_rate : ℚ
  pred_mut_rate : ℚ
  shock_chance : ℚ
  seed : ℤ
deriving DecidableEq, Repr

/-- The default parameter values of run_sim (ecolens.py lines 26-38). -/
def cfgDefault : Config :=
  { days := 200, init_prey := 80, init_pred := 15, init_resource := 300,
    resource_regen := 8, prey_consumption := 1, pred_consumption := 2,
    prey_repro_thresh := 2, pred_repro_thresh := 5, prey_mut_rate := 0.05,
    pred_mut_rate := 0.03, shock_chance := 0.02, seed := 42 }

/-- The stream of values returned by successive random.random() calls of
the Python random module, abstracted as a function from call index to a
rational in the unit interval. -/
def RStream : Type := ℕ → ℚ

/-- The all-zero stream, used for concrete runs; zero is a legal value of
random.random(), whose range is the half-open unit interval. -/
def zeroStream : RStream := fun _ => 0

/-- The Python call random.uniform(a, b) returns a + (b - a) * random(). -/
def uniformOf (a b x : ℚ) : ℚ := a + (b - a) * x

/-- Swap the entries at positions i and j of a list; out-of-range indices
leave the list unchanged. Used to model the in-place swaps of
random.shuffle. -/
def listSwap (l : List α) (i j : ℕ) : List α :=
  match l.get? i, l.get? j with
  | some x, some y => (l.set i y).set j x
  | _, _ => l

/-- Fisher-Yates descent of random.shuffle: for position index i+1 down to
position 1, draw j uniformly below i+2 and swap positions i+1 and j. One
draw is consumed per position, matching the CPython implementation of
random.shuffle. -/
def shuffleAux (u : RStream) : List α → ℕ → ℕ → List α × ℕ
  | l, k, 0 => (l, k)
  | l, k, i + 1 =>
      let j := ((u k) * ((i : ℚ) + 2)).floor.toNat
      shuffleAux u (listSwap l (i + 1) j) (k + 1) i

/-- Model of random.shuffle(l) given the draw stream and current draw
index: returns the shuffled list and the next draw index. -/
def shuffle (u : RStream) (l : List α) (k : ℕ) : List α × ℕ :=
  shuffleAux u l k (l.length - 1)

/-- Average efficiency of a population with the count floored to one --
mirrors sum((p.efficiency for p in xs), 0.0) / (len(xs) or 1)
(ecolens.py lines 127-128). -/
def avgEff (l : List Individual) : ℚ :=
  (l.map Individual.efficiency).sum / (if l.length = 0 then 1 else (l.length : ℚ))

/-- Total prey demand: prey_need = sum of prey_consumption * (0.5 + efficiency)
over all prey (ecolens.py line 58). -/
def preyNeed (pcons : ℚ) (prey : List Individual) : ℚ :=
  (prey.map (fun p => pcons * (0.5 + p.efficiency))).sum

/-- Resource allocation stage (ecolens.py lines 61-66): when prey is
non-empty, compute per-prey shares 0.5 + efficiency, floor the share sum to
one when it is zero, and add got * efficiency * 0.1 to each preys energy,
where got = available * share / total_shares. -/
def allocate (available_to_prey : ℚ) (prey : List Individual) : List Individual :=
  if prey.isEmpty then prey
  else
    let shares := prey.map (fun p => 0.5 + p.efficiency)
    let total_shares := if shares.sum = 0 then 1 else shares.sum
    (prey.zip shares).map (fun ps =>
      let got := available_to_prey * (ps.2 / total_shares)
      { ps.1 with energy := ps.1.energy + got * ps.1.efficiency * 0.1 })

/-- Predation stage (ecolens.py lines 71-79): walk the (already shuffled)
predator list; stop as soon as the prey list is empty; otherwise draw a
success test against 0.3 + 0.4 * efficiency, and on success remove the
front prey and add pred_consumption * efficiency to the predators energy.
Returns the predator list (energies updated in place in the source), the
surviving prey list, and the next draw index. -/
def predation (u : RStream) (pcons : ℚ) :
    List Individual → List Individual → ℕ → List Individual × List Individual × ℕ
  | [], prey, k => ([], prey, k)
  | pr :: rest, [], k => (pr :: rest, [], k)
  | pr :: rest, t :: preyRest, k =>
    if u k < 0.3 + 0.4 * pr.efficiency then
      let res := predation u pcons rest preyRest (k + 1)
      ({ pr with energy := pr.energy + pcons * pr.efficiency } :: res.1, res.2.1, res.2.2)
    else
      let res := predation u pcons rest (t :: preyRest) (k + 1)
      (pr :: res.1, res.2.1, res.2.2)

/-- Prey reproduction and survival stage (ecolens.py lines 82-94). Per
prey, in list order: if energy exceeds the threshold, draw; if the draw is
below 0.6, append a child with energy one and efficiency
max(0.05, efficiency + uniform(-mu, mu)) and multiply the parent energy
by 0.6. Then, if the (post-cost) energy exceeds 0.1, draw; if the draw is
below 0.7 + 0.2 * (energy / (thresh + 1)), the parent survives with energy
multiplied by 0.9. -/
def preyRS (u : RStream) (thresh mu : ℚ) :
    List Individual → ℕ → List Individual × ℕ
  | [], k => ([], k)
  | p :: rest, k =>
    let repro :=
      if p.energy > thresh then
        if u k < 0.6 then
          (([Individual.mk 1 (max 0.05 (p.efficiency + uniformOf (-mu) mu (u (k + 1))))],
            { p with energy := p.energy * 0.6 }), k + 2)
        else (([], p), k + 1)
      else (([], p), k)
    let p1 := repro.1.2
    let surv :=
      if p1.energy > 0.1 then
        if u repro.2 < 0.7 + 0.2 * (p1.energy / (thresh + 1)) then
          ([{ p1 with energy := p1.energy * 0.9 }], repro.2 + 1)
        else ([], repro.2 + 1)
      else ([], repro.2)
    let res := preyRS u thresh mu rest surv.2
    (repro.1.1 ++ surv.1 ++ res.1, res.2)

/-- Predator reproduction and survival stage (ecolens.py lines 98-107),
with the predator constants: child energy two, reproduction draw below 0.5,
reproduction cost 0.5, survival floor 0.5, survival probability
0.6 + 0.2 * (energy / (thresh + 1)), decay 0.92. -/
def predRS (u : RStream) (thresh mu : ℚ) :
    List Individual → ℕ → List Individual × ℕ
  | [], k => ([], k)
  | p :: rest, k =>
    let repro :=
      if p.energy > thresh then
        if u k < 0.5 then
          (([Individual.mk 2 (max 0.05 (p.efficiency + uniformOf (-mu) mu (u (k + 1))))],
            { p with energy := p.energy * 0.5 }), k + 2)
        else (([], p), k + 1)
      else (([], p), k)
    let p1 := repro.1.2
    let surv :=
      if p1.energy > 0.5 then
        if u repro.2 < 0.6 + 0.2 * (p1.energy / (thresh + 1)) then
          ([{ p1 with energy := p1.energy * 0.92 }], repro.2 + 1)
        else ([], repro.2 + 1)
      else ([], repro.2)
    let res := predRS u thresh mu rest surv.2
    (repro.1.1 ++ surv.1 ++ res.1, res.2)

/-- Resource consumption and regeneration (ecolens.py line 113):
resource = max(0, resource - available_to_prey) + resource_regen. -/
def resourceUpdate (r available regen : ℚ) : ℚ :=
  max 0 (r - available) + regen

/-- Occasional shock (ecolens.py lines 114-115): one draw is always
consumed; when it is below shock_chance, a second draw scales the resource
by uniform(0.3, 0.7). -/
def shockStep (u : RStream) (chance r : ℚ) (k : ℕ) : ℚ × ℕ :=
  if u k < chance then (r * uniformOf 0.3 0.7 (u (k + 1)), k + 2) else (r, k + 1)

/-- Carrying capacity (ecolens.py line 118):
max(1, init_resource * (1 + 0.005 * sin(day / 10))), with the sine value
supplied by the per-day sequence sinD standing for math.sin(day / 10.0). -/
def carryingAt (init_resource : ℚ) (sinD : ℕ → ℚ) (day : ℕ) : ℚ :=
  max 1 (init_resource * (1 + 0.005 * sinD day))

/-- Carrying-capacity damping (ecolens.py lines 119-120): a soft ceiling,
resource is multiplied by 0.98 when above carrying capacity. -/
def dampStep (r carrying : ℚ) : ℚ :=
  if r > carrying then r * 0.98 else r

/-- Population seeding (ecolens.py lines 43-44): n individuals with the
given fixed starting energy and efficiency uniform(0.6, 1.0), one draw per
individual, in list order. -/
def seedPop (u : RStream) (energy : ℚ) : ℕ → ℕ → List Individual × ℕ
  | 0, k => ([], k)
  | n + 1, k =>
    let res := seedPop u energy n (k + 1)
    (Individual.mk energy (uniformOf 0.6 1 (u k)) :: res.1, res.2)

/-- The mutable simulation state of run_sim: the two population lists, the
resource scalar, and the position reached in the random stream. -/
structure SimSt where
  prey : List Individual
  predators : List Individual
  resource : ℚ
  k : ℕ
deriving DecidableEq, Repr

/-- Initial state (ecolens.py lines 43-45): prey seeded first (energy one),
then predators (energy two), resource at init_resource. Negative population
parameters yield empty lists, as range does in Python. -/
def initSt (cfg : Config) (u : RStream) : SimSt :=
  let pr := seedPop u 1 cfg.init_prey.toNat 0
  let pd := seedPop u 2 cfg.init_pred.toNat pr.2
  ⟨pr.1, pd.1, cfg.init_resource, pd.2⟩

/-- One day of simulation stages in source order (ecolens.py lines 57-120):
prey demand and available amount, allocation, shuffle of both populations,
predation, prey reproduction/survival, predator reproduction/survival,
resource update, shock, carrying-capacity damping. Recording and the
population caps are applied outside this function, after it. -/
def stages (cfg : Config) (u : RStream) (sinD : ℕ → ℚ) (day : ℕ) (s : SimSt) : SimSt :=
  let prey_need := preyNeed cfg.prey_consumption s.prey
  let available_to_prey := min s.resource prey_need
  let prey1 := allocate available_to_prey s.prey
  let sh1 := shuffle u prey1 s.k
  let sh2 := shuffle u s.predators sh1.2
  let pd := predation u cfg.pred_consumption sh2.1 sh1.1 sh2.2
  let pr := preyRS u cfg.prey_repro_thresh cfg.prey_mut_rate pd.2.1 pd.2.2
  let pq := predRS u cfg.pred_repro_thresh cfg.pred_mut_rate pd.1 pr.2
  let r1 := resourceUpdate s.resource available_to_prey cfg.resource_regen
  let r2 := shockStep u cfg.shock_chance r1 pq.2
  let r3 := dampStep r2.1 (carryingAt cfg.init_resource sinD day)
  ⟨pr.1, pq.1, r3, r2.2⟩

/-- One per-day record of the history mapping: the six values appended on
one day (ecolens.py lines 122-128). -/
structure Row where
  day : ℕ
  prey_count : ℕ
  pred_count : ℕ
  resource : ℚ
  prey_avg_eff : ℚ
  pred_avg_eff : ℚ
deriving DecidableEq, Repr

/-- Record statistics for one day from the post-stage, pre-cap state
(ecolens.py lines 122-128). -/
def recordRow (day : ℕ) (s : SimSt) : Row :=
  ⟨day, s.prey.length, s.predators.length, s.resource,
   avgEff s.prey, avgEff s.predators⟩

/-- Safety caps (ecolens.py lines 130-134): truncate prey to the first 2000
and predators to the first 500 entries, only when the length exceeds the
cap. -/
def capSt (s : SimSt) : SimSt :=
  { s with
    prey := if s.prey.length > 2000 then s.prey.take 2000 else s.prey,
    predators := if s.predators.length > 500 then s.predators.take 500 else s.predators }

/-- State at the start of day n: the initial state for n = 0, and otherwise
the result of the previous day (stages, then caps). -/
def stateAfter (cfg : Config) (u : RStream) (sinD : ℕ → ℚ) : ℕ → SimSt
  | 0 => initSt cfg u
  | n + 1 => capSt (stages cfg u sinD n (stateAfter cfg u sinD n))

/-- The history row recorded on day n: statistics of the post-stage state
of day n, before the caps are applied (ecolens.py lines 122-128 precede
lines 130-134). -/
def rowAt (cfg : Config) (u : RStream) (sinD : ℕ → ℚ) (n : ℕ) : Row :=
  recordRow n (stages cfg u sinD n (stateAfter cfg u sinD n))

/-- The history mapping (ecolens.py lines 47-54): six named sequences, one
value appended per day. -/
structure History where
  day : List ℕ
  prey_count : List ℕ
  pred_count : List ℕ
  resource : List ℚ
  prey_avg_eff : List ℚ
  pred_avg_eff : List ℚ
deriving DecidableEq, Repr

/-- Assemble the history mapping from the per-day rows. -/
def historyOf (rows : List Row) : History :=
  ⟨rows.map Row.day, rows.map Row.prey_count, rows.map Row.pred_count,
   rows.map Row.resource, rows.map Row.prey_avg_eff, rows.map Row.pred_avg_eff⟩

/-- The run_sim loop (ecolens.py lines 56-137): one row per day for day in
range(days), returning the complete history. A non-positive days parameter
gives an empty range, as in Python. -/
def run_sim (cfg : Config) (u : RStream) (sinD : ℕ → ℚ) : History :=
  historyOf ((List.range cfg.days.toNat).map (rowAt cfg u sinD))

/-- Modelled from the spec: run_sim seeds the global random stream once at
the start (random.seed(seed), ecolens.py line 39); the Mersenne-Twister
generator itself is Python standard-library code external to this
repository, so the seeded stream is modelled by a concrete deterministic
generator, a linear congruential recurrence on the seed. -/
def lcgState (seed : ℤ) : ℕ → ℕ
  | 0 => seed.toNat % 2147483647
  | n + 1 => (48271 * lcgState seed n + 1) % 2147483647

/-- Modelled from the spec: the single deterministic random-number stream
seeded once at the start of the run, as a function of the seed, with every
value in the half-open unit interval. -/
def seededStream (seed : ℤ) : RStream :=
  fun n => (lcgState seed (n + 1) : ℚ) / 2147483647

/-- run_sim as called with a seed (ecolens.py lines 39-40): the one random
stream of the whole run is the seeded stream, consumed in program order. -/
def run_sim_seeded (cfg : Config) (sinD : ℕ → ℚ) : History :=
  run_sim cfg (seededStream cfg.seed) sinD

/-- The all-zero sine sequence, used for concrete runs; on day zero it
agrees exactly with math.sin(0 / 10.0) = 0. -/
def sinZero : ℕ → ℚ := fun _ => 0

/-- A configuration that is invalid per the spec error taxonomy: negative
init_prey and a probability field above one. -/
def cfgInvalid : Config :=
  { cfgDefault with
    days := 1,
    init_prey := -5,
    init_pred := 0,
    shock_chance := 1.5 }

/-- A configuration with a negative regeneration rate, a plain float field
with no sign constraint anywhere in run_sim. -/
def cfgNegRegen : Config :=
  { cfgDefault with
    days := 1,
    init_prey := 0,
    init_pred := 0,
    init_resource := 0,
    resource_regen := -1,
    shock_chance := 0 }

/-- A one-day configuration with one prey, high consumption so the single
prey crosses the reproduction threshold on day zero, and the default
mutation half-width 0.05. -/
def cfgMutUp : Config :=
  { cfgDefault with
    days := 1,
    init_prey := 1,
    init_pred := 0,
    prey_consumption := 100,
    shock_chance := 0 }

/-- A draw stream whose first value seeds prey efficiency 0.99, and whose
third value pushes the mutation draw near its upper end; all values are in
the half-open unit interval, the range of random.random(). -/
def effStream : RStream := fun n => if n = 0 then 0.975 else if n = 2 then 0.999 else 0

/-- A three-day configuration with empty initial populations and shocks
disabled. -/
def cfgTiny : Config :=
  { cfgDefault with
    days := 3,
    init_prey := 0,
    init_pred := 0,
    shock_chance := 0 }

/-- A one-day configuration with empty initial populations and shocks
disabled. -/
def cfgOne : Config :=
  { cfgDefault with
    days := 1,
    init_prey := 0,
    init_pred := 0,
    shock_chance := 0 }

/-- A configuration with a negative day count. -/
def cfgNegDays : Config :=
  { cfgDefault with
    days := -1 }

/-- A concrete simulation state with a single prey individual, used to
instantiate the allocation theorem. -/
def stOnePrey : SimSt := ⟨[Individual.mk 1 0.8], [], 10, 0⟩

/-!
Theorems. The first group establishes basic facts about the shape of the
returned history; later groups cover the invariants and the refuted
claims.
-/

/-- Every value of the all-zero stream is a legal random.random() value. -/
theorem zeroStream_range (n : ℕ) : 0 ≤ zeroStream n ∧ zeroStream n < 1 := by
  constructor <;> norm_num [zeroStream]

/-- Every value of effStream is a legal random.random() value. -/
theorem effStream_range (n : ℕ) : 0 ≤ effStream n ∧ effStream n < 1 := by
  unfold effStream
  split_ifs <;> constructor <;> norm_num

/-- The day entry recorded on day n is n itself. -/
theorem rowAt_day (cfg : Config) (u : RStream) (sinD : ℕ → ℚ) (n : ℕ) :
    (rowAt cfg u sinD n).day = n := rfl

/-- The day sequence of the returned history is the range of the elapsed
days. -/
theorem run_sim_day_eq (cfg : Config) (u : RStream) (sinD : ℕ → ℚ) :
    (run_sim cfg u sinD).day = List.range cfg.days.toNat := by
  show ((List.range cfg.days.toNat).map (rowAt cfg u sinD)).map Row.day
      = List.range cfg.days.toNat
  rw [List.map_map]
  exact List.map_id'' (fun n => rfl) _

/-- Seeding n individuals yields a list of length n. -/
theorem seedPop_length (u : RStream) (e : ℚ) :
    ∀ (n k : ℕ), (seedPop u e n k).1.length = n := by
  intro n
  induction n with
  | zero => intro k; rfl
  | succ m ih => intro k; simp [seedPop, ih]

/-- After the cap the prey list has at most 2000 entries. -/
theorem capSt_prey_le (s : SimSt) : (capSt s).prey.length ≤ 2000 := by
  simp only [capSt]
  split
  · simp [List.length_take]
  · omega

/-- After the cap the predator list has at most 500 entries. -/
theorem capSt_pred_le (s : SimSt) : (capSt s).predators.length ≤ 500 := by
  simp only [capSt]
  split
  · simp [List.length_take]
  · omega

/-- The capped prey length is the minimum of the uncapped length and 2000. -/
theorem capSt_prey_length (s : SimSt) :
    (capSt s).prey.length = min s.prey.length 2000 := by
  simp only [capSt]
  split
  · simp [List.length_take]; omega
  · omega

/-- The capped predator length is the minimum of the uncapped length and 500. -/
theorem capSt_pred_length (s : SimSt) :
    (capSt s).predators.length = min s.predators.length 500 := by
  simp only [capSt]
  split
  · simp [List.length_take]; omega
  · omega

/-- Claim C2: for a configuration with days = d, the returned history holds
exactly the six sequences day, prey_count, pred_count, resource,
prey_avg_eff, pred_avg_eff (the six fields of History), each of length
exactly d, with the day sequence being 0, 1, ..., d-1. -/
theorem run_sim_history_lengths (cfg : Config) (u : RStream) (sinD : ℕ → ℚ)
    (d : ℕ) (hd : cfg.days = (d : ℤ)) :
    (run_sim cfg u sinD).day = List.range d
  ∧ (run_sim cfg u sinD).day.length = d
  ∧ (run_sim cfg u sinD).prey_count.length = d
  ∧ (run_sim cfg u sinD).pred_count.length = d
  ∧ (run_sim cfg u sinD).resource.length = d
  ∧ (run_sim cfg u sinD).prey_avg_eff.length = d
  ∧ (run_sim cfg u sinD).pred_avg_eff.length = d := by
  have ht : cfg.days.toNat = d := by rw [hd]; exact Int.toNat_natCast d
  refine ⟨?_, ?_, ?_, ?_, ?_, ?_, ?_⟩
  · rw [run_sim_day_eq, ht]
  all_goals simp [run_sim, historyOf, ht]

/-- Witness for C2 at a concrete three-day configuration. -/
theorem run_sim_history_lengths_witness :
    (run_sim cfgTiny zeroStream sinZero).day = List.range 3
  ∧ (run_sim cfgTiny zeroStream sinZero).day.length = 3
  ∧ (run_sim cfgTiny zeroStream sinZero).prey_count.length = 3
  ∧ (run_sim cfgTiny zeroStream sinZero).pred_count.length = 3
  ∧ (run_sim cfgTiny zeroStream sinZero).resource.length = 3
  ∧ (run_sim cfgTiny zeroStream sinZero).prey_avg_eff.length = 3
  ∧ (run_sim cfgTiny zeroStream sinZero).pred_avg_eff.length = 3 :=
  run_sim_history_lengths cfgTiny zeroStream sinZero 3 rfl

/-- Claim C10: a non-positive day count raises nothing; run_sim returns the
history with its six sequences all empty, since range(days) is empty. -/
theorem run_sim_days_nonpositive (cfg : Config) (u : RStream) (sinD : ℕ → ℚ)
    (h : cfg.days ≤ 0) :
    run_sim cfg u sinD = ⟨[], [], [], [], [], []⟩ := by
  have ht : cfg.days.toNat = 0 := Int.toNat_of_nonpos h
  simp [run_sim, historyOf, ht]

/-- Witness for C10 at a configuration with days = -1. -/
theorem run_sim_days_nonpositive_witness :
    run_sim cfgNegDays zeroStream sinZero = ⟨[], [], [], [], [], []⟩ :=
  run_sim_days_nonpositive cfgNegDays zeroStream sinZero (by decide)

/-- Claim C1: two invocations of run_sim with identical parameter values
(the seed among them) return bit-identical histories, all six sequences
equal, because the whole run reads one deterministic stream that is a
function of the seed alone, seeded once at the start. -/
theorem run_sim_deterministic (cfg₁ cfg₂ : Config) (sinD : ℕ → ℚ)
    (h : cfg₁ = cfg₂) :
    (run_sim_seeded cfg₁ sinD).day = (run_sim_seeded cfg₂ sinD).day
  ∧ (run_sim_seeded cfg₁ sinD).prey_count = (run_sim_seeded cfg₂ sinD).prey_count
  ∧ (run_sim_seeded cfg₁ sinD).pred_count = (run_sim_seeded cfg₂ sinD).pred_count
  ∧ (run_sim_seeded cfg₁ sinD).resource = (run_sim_seeded cfg₂ sinD).resource
  ∧ (run_sim_seeded cfg₁ sinD).prey_avg_eff = (run_sim_seeded cfg₂ sinD).prey_avg_eff
  ∧ (run_sim_seeded cfg₁ sinD).pred_avg_eff = (run_sim_seeded cfg₂ sinD).pred_avg_eff := by
  subst h
  exact ⟨rfl, rfl, rfl, rfl, rfl, rfl⟩

/-- Witness for C1 at the default configuration. -/
theorem run_sim_deterministic_witness :
    (run_sim_seeded cfgDefault sinZero).day = (run_sim_seeded cfgDefault sinZero).day
  ∧ (run_sim_seeded cfgDefault sinZero).prey_count = (run_sim_seeded cfgDefault sinZero).prey_count
  ∧ (run_sim_seeded cfgDefault sinZero).pred_count = (run_sim_seeded cfgDefault sinZero).pred_count
  ∧ (run_sim_seeded cfgDefault sinZero).resource = (run_sim_seeded cfgDefault sinZero).resource
  ∧ (run_sim_seeded cfgDefault sinZero).prey_avg_eff = (run_sim_seeded cfgDefault sinZero).prey_avg_eff
  ∧ (run_sim_seeded cfgDefault sinZero).pred_avg_eff = (run_sim_seeded cfgDefault sinZero).pred_avg_eff :=
  run_sim_deterministic cfgDefault cfgDefault sinZero rfl

/-- Claim C3: the four population statistics recorded on day n are computed
from the post-stage, pre-cap lists, and the lists carried into day n+1 are
the capped ones, of length min(uncapped, cap); so on a day whose uncapped
size exceeds the cap the recorded count exceeds the carried-forward size. -/
theorem run_sim_records_before_cap (cfg : Config) (u : RStream) (sinD : ℕ → ℚ) (n : ℕ) :
    (rowAt cfg u sinD n).prey_count
      = (stages cfg u sinD n (stateAfter cfg u sinD n)).prey.length
  ∧ (rowAt cfg u sinD n).pred_count
      = (stages cfg u sinD n (stateAfter cfg u sinD n)).predators.length
  ∧ (rowAt cfg u sinD n).prey_avg_eff
      = avgEff (stages cfg u sinD n (stateAfter cfg u sinD n)).prey
  ∧ (rowAt cfg u sinD n).pred_avg_eff
      = avgEff (stages cfg u sinD n (stateAfter cfg u sinD n)).predators
  ∧ (stateAfter cfg u sinD (n + 1)).prey.length
      = min (stages cfg u sinD n (stateAfter cfg u sinD n)).prey.length 2000
  ∧ (stateAfter cfg u sinD (n + 1)).predators.length
      = min (stages cfg u sinD n (stateAfter cfg u sinD n)).predators.length 500 := by
  refine ⟨rfl, rfl, rfl, rfl, ?_, ?_⟩
  · show (capSt _).prey.length = _
    exact capSt_prey_length _
  · show (capSt _).predators.length = _
    exact capSt_pred_length _

/-- Claim C4: the population lists never exceed the caps at the start of a
day: unconditionally from day one on (the caps ran at the end of the
previous day), and from day zero on when the initial populations are within
the caps. -/
theorem run_sim_population_caps (cfg : Config) (u : RStream) (sinD : ℕ → ℚ) (n : ℕ)
    (h : 1 ≤ n ∨ (cfg.init_prey ≤ 2000 ∧ cfg.init_pred ≤ 500)) :
    (stateAfter cfg u sinD n).prey.length ≤ 2000
  ∧ (stateAfter cfg u sinD n).predators.length ≤ 500 := by
  cases n with
  | zero =>
    rcases h with h1 | ⟨hp, hq⟩
    · omega
    constructor
    · show (initSt cfg u).prey.length ≤ 2000
      simp only [initSt, seedPop_length]
      exact Int.toNat_le.mpr (by exact_mod_cast hp)
    · show (initSt cfg u).predators.length ≤ 500
      simp only [initSt, seedPop_length]
      exact Int.toNat_le.mpr (by exact_mod_cast hq)
  | succ m =>
    exact ⟨capSt_prey_le _, capSt_pred_le _⟩

/-- Witness for C4 at a concrete configuration within the caps, on day
zero. -/
theorem run_sim_population_caps_witness :
    (stateAfter cfgTiny zeroStream sinZero 0).prey.length ≤ 2000
  ∧ (stateAfter cfgTiny zeroStream sinZero 0).predators.length ≤ 500 :=
  run_sim_population_caps cfgTiny zeroStream sinZero 0 (Or.inr ⟨by decide, by decide⟩)

/-- Counterexample to claim C5: run_sim performs no configuration
validation at all. The configuration here is invalid on two counts of the
spec taxonomy (negative init_prey, and the probability field shock_chance
above one), yet the run proceeds and a complete one-day history is
produced; there is no ConfigurationError anywhere in the source. -/
theorem run_sim_no_validation_cx :
    (run_sim cfgInvalid zeroStream sinZero).day = [0]
  ∧ (run_sim cfgInvalid zeroStream sinZero).prey_count = [0]
  ∧ (run_sim cfgInvalid zeroStream sinZero).pred_count = [0]
  ∧ (run_sim cfgInvalid zeroStream sinZero).resource = [462/5] := by
  norm_num [run_sim, historyOf, rowAt, recordRow, stages, stateAfter, initSt,
    seedPop, preyNeed, allocate, shuffle, shuffleAux, listSwap, predation,
    preyRS, predRS, resourceUpdate, shockStep, carryingAt, dampStep, avgEff,
    uniformOf, capSt, cfgInvalid, cfgDefault, zeroStream, sinZero,
    List.range_succ]

/-- Amendment of claim C5: run_sim is a total function that rejects
nothing; every configuration, valid or invalid, yields a complete history
whose six sequences all have length max(days, 0). -/
theorem run_sim_total_no_rejection (cfg : Config) (u : RStream) (sinD : ℕ → ℚ) :
    (run_sim cfg u sinD).day.length = cfg.days.toNat
  ∧ (run_sim cfg u sinD).prey_count.length = cfg.days.toNat
  ∧ (run_sim cfg u sinD).pred_count.length = cfg.days.toNat
  ∧ (run_sim cfg u sinD).resource.length = cfg.days.toNat
  ∧ (run_sim cfg u sinD).prey_avg_eff.length = cfg.days.toNat
  ∧ (run_sim cfg u sinD).pred_avg_eff.length = cfg.days.toNat := by
  refine ⟨?_, ?_, ?_, ?_, ?_, ?_⟩ <;> simp [run_sim, historyOf]

/-- A resource update with a non-negative regeneration rate is
non-negative. -/
theorem resourceUpdate_nonneg (r a regen : ℚ) (h : 0 ≤ regen) :
    0 ≤ resourceUpdate r a regen :=
  add_nonneg (le_max_left 0 (r - a)) h

/-- The shock scaling keeps a non-negative resource non-negative when the
draws are in the unit interval. -/
theorem shockStep_nonneg (u : RStream) (c r : ℚ) (k : ℕ)
    (hu : ∀ n, 0 ≤ u n) (hr : 0 ≤ r) : 0 ≤ (shockStep u c r k).1 := by
  unfold shockStep
  split
  · have : (0 : ℚ) ≤ uniformOf 0.3 0.7 (u (k + 1)) := by
      unfold uniformOf
      have := hu (k + 1)
      nlinarith
    exact mul_nonneg hr this
  · exact hr

/-- The carrying-capacity damping keeps a non-negative resource
non-negative. -/
theorem dampStep_nonneg (r c : ℚ) (hr : 0 ≤ r) : 0 ≤ dampStep r c := by
  unfold dampStep
  split
  · nlinarith
  · exact hr

/-- The resource value recorded on any day is non-negative provided the
regeneration rate is non-negative and the draws are in the unit
interval. -/
theorem rowAt_resource_nonneg (cfg : Config) (u : RStream) (sinD : ℕ → ℚ) (n : ℕ)
    (hr : 0 ≤ cfg.resource_regen) (hu : ∀ m, 0 ≤ u m) :
    0 ≤ (rowAt cfg u sinD n).resource := by
  show 0 ≤ (stages cfg u sinD n (stateAfter cfg u sinD n)).resource
  simp only [stages]
  exact dampStep_nonneg _ _ (shockStep_nonneg u _ _ _ hu (resourceUpdate_nonneg _ _ _ hr))

/-- Counterexample to claim C6: with a negative resource_regen (a plain
float parameter that run_sim never constrains), the recorded resource is
negative: from resource 0 and no prey, day zero records
max(0, 0 - 0) + (-1) = -1. The zero draw stream is a legal stream and the
sine model is exact on day zero. -/
theorem run_sim_resource_negative_cx :
    (run_sim cfgNegRegen zeroStream sinZero).resource = [-1]
  ∧ ¬ (0 ≤ (-1 : ℚ)) := by
  constructor
  · norm_num [run_sim, historyOf, rowAt, recordRow, stages, stateAfter, initSt,
      seedPop, preyNeed, allocate, shuffle, shuffleAux, listSwap, predation,
      preyRS, predRS, resourceUpdate, shockStep, carryingAt, dampStep, avgEff,
      uniformOf, capSt, cfgNegRegen, cfgDefault, zeroStream, sinZero,
      List.range_succ]
  · norm_num

/-- Amendment of claim C6: every resource value recorded at a day boundary
(after consumption, regeneration, shock and damping, in that order) is
non-negative, provided resource_regen is non-negative; the update is
resource = max(0, resource - available_to_prey) + resource_regen followed
by the optional shock scaling and the damping, neither of which can turn a
non-negative value negative for unit-interval draws. -/
theorem run_sim_resource_nonneg (cfg : Config) (u : RStream) (sinD : ℕ → ℚ)
    (hr : 0 ≤ cfg.resource_regen) (hu : ∀ m, 0 ≤ u m)
    (x : ℚ) (hx : x ∈ (run_sim cfg u sinD).resource) : 0 ≤ x := by
  simp only [run_sim, historyOf, List.map_map, List.mem_map, List.mem_range] at hx
  obtain ⟨n, _, rfl⟩ := hx
  exact rowAt_resource_nonneg cfg u sinD n hr hu

/-- Witness for the amended C6 at a concrete one-day run: the single
recorded resource value 7546/25 is non-negative. -/
theorem run_sim_resource_nonneg_witness : (0 : ℚ) ≤ 7546/25 :=
  run_sim_resource_nonneg cfgOne zeroStream sinZero
    (by norm_num [cfgOne, cfgDefault])
    (fun _ => le_refl 0)
    (7546/25)
    (by norm_num [run_sim, historyOf, rowAt, recordRow, stages, stateAfter, initSt,
      seedPop, preyNeed, allocate, shuffle, shuffleAux, listSwap, predation,
      preyRS, predRS, resourceUpdate, shockStep, carryingAt, dampStep, avgEff,
      uniformOf, capSt, cfgOne, cfgDefault, zeroStream, sinZero,
      List.range_succ])

/-- Counterexample to claim C7: with the default mutation half-width 0.05
and a seeded efficiency of 0.99, a reproduction on day zero creates a child
of efficiency 1.0399 (no upper clamp exists in the source), so with two
prey the recorded average 20299/20000 exceeds 1. All stream values lie in
the unit interval and the sine model is exact on day zero. -/
theorem run_sim_avg_eff_above_one_cx :
    (run_sim cfgMutUp effStream sinZero).prey_count = [2]
  ∧ (run_sim cfgMutUp effStream sinZero).prey_avg_eff = [20299/20000]
  ∧ ¬ ((20299 : ℚ)/20000 ≤ 1) := by
  refine ⟨?_, ?_, by norm_num⟩ <;>
    norm_num [run_sim, historyOf, rowAt, recordRow, stages, stateAfter, initSt,
      seedPop, preyNeed, allocate, shuffle, shuffleAux, listSwap, predation,
      preyRS, predRS, resourceUpdate, shockStep, carryingAt, dampStep, avgEff,
      uniformOf, capSt, cfgMutUp, cfgDefault, effStream, sinZero,
      List.range_succ]

/-- The first component of a pair drawn from a zip lies in the first
list. -/
theorem zip_fst_mem (l₁ : List α) (l₂ : List β) (p : α × β)
    (h : p ∈ l₁.zip l₂) : p.1 ∈ l₁ := by
  induction l₁ generalizing l₂ with
  | nil => simp [List.zip] at h
  | cons a t ih =>
    cases l₂ with
    | nil => simp [List.zip] at h
    | cons b s =>
      rw [List.zip_cons_cons, List.mem_cons] at h
      rcases h with rfl | h
      · exact List.mem_cons_self a t
      · exact List.mem_cons_of_mem _ (ih s h)

/-- Allocation only rescales energies: every output individual carries the
efficiency of some input individual. -/
theorem mem_allocate (a : ℚ) (l : List Individual) (q : Individual)
    (hq : q ∈ allocate a l) : ∃ p ∈ l, q.efficiency = p.efficiency := by
  unfold allocate at hq
  split at hq
  · exact ⟨q, hq, rfl⟩
  · simp only [List.mem_map] at hq
    obtain ⟨ps, hps, rfl⟩ := hq
    exact ⟨ps.1, zip_fst_mem _ _ _ hps, rfl⟩

/-- A member of a swapped list is a member of the original list. -/
theorem mem_listSwap (l : List α) (i j : ℕ) (q : α)
    (hq : q ∈ listSwap l i j) : q ∈ l := by
  unfold listSwap at hq
  split at hq
  case _ x y hi hj =>
    rcases List.mem_or_eq_of_mem_set hq with hq2 | rfl
    · rcases List.mem_or_eq_of_mem_set hq2 with hq3 | rfl
      · exact hq3
      · exact List.get?_mem hj
    · exact List.get?_mem hi
  case _ => exact hq

/-- A member of the partly shuffled list is a member of the original
list. -/
theorem mem_shuffleAux (u : RStream) :
    ∀ (i : ℕ) (l : List α) (k : ℕ) (q : α), q ∈ (shuffleAux u l k i).1 → q ∈ l := by
  intro i
  induction i with
  | zero => intro l k q hq; exact hq
  | succ m ih =>
    intro l k q hq
    exact mem_listSwap _ _ _ _ (ih _ _ _ hq)

/-- A member of the shuffled list is a member of the original list. -/
theorem mem_shuffle (u : RStream) (l : List α) (k : ℕ) (q : α)
    (hq : q ∈ (shuffle u l k).1) : q ∈ l :=
  mem_shuffleAux u _ l k q hq

/-- Predation only adds energy to predators: every output predator carries
the efficiency of some input predator. -/
theorem predation_mem_preds (u : RStream) (pc : ℚ) :
    ∀ (preds prey : List Individual) (k : ℕ) (q : Individual),
      q ∈ (predation u pc preds prey k).1 → ∃ p ∈ preds, q.efficiency = p.efficiency := by
  intro preds
  induction preds with
  | nil => intro prey k q hq; simp [predation] at hq
  | cons pr rest ih =>
    intro prey k q hq
    cases prey with
    | nil =>
      exact ⟨q, hq, rfl⟩
    | cons t preyRest =>
      simp only [predation] at hq
      split_ifs at hq with hdraw <;>
        rw [List.mem_cons] at hq <;>
        rcases hq with heq | hq
      · exact ⟨pr, List.mem_cons_self pr rest, by rw [heq]⟩
      · obtain ⟨p, hp, he⟩ := ih _ _ _ hq
        exact ⟨p, List.mem_cons_of_mem _ hp, he⟩
      · exact ⟨pr, List.mem_cons_self pr rest, by rw [heq]⟩
      · obtain ⟨p, hp, he⟩ := ih _ _ _ hq
        exact ⟨p, List.mem_cons_of_mem _ hp, he⟩

/-- Predation only removes prey: every surviving prey is a member of the
incoming prey list. -/
theorem predation_mem_prey (u : RStream) (pc : ℚ) :
    ∀ (preds prey : List Individual) (k : ℕ) (q : Individual),
      q ∈ (predation u pc preds prey k).2.1 → q ∈ prey := by
  intro preds
  induction preds with
  | nil => intro prey k q hq; exact hq
  | cons pr rest ih =>
    intro prey k q hq
    cases prey with
    | nil => simp [predation] at hq
    | cons t preyRest =>
      simp only [predation] at hq
      split_ifs at hq with hdraw
      · exact List.mem_cons_of_mem _ (ih _ _ _ hq)
      · exact ih _ _ _ hq

/-- Every individual produced by the prey reproduction/survival stage is
either a fresh child, whose efficiency is clamped to at least 0.05, or
carries the efficiency of some incoming prey. -/
theorem preyRS_mem (u : RStream) (t m : ℚ) :
    ∀ (l : List Individual) (k : ℕ) (q : Individual),
      q ∈ (preyRS u t m l k).1 →
      (0.05 : ℚ) ≤ q.efficiency ∨ ∃ p ∈ l, q.efficiency = p.efficiency := by
  intro l
  induction l with
  | nil => intro k q hq; simp [preyRS] at hq
  | cons p rest ih =>
    intro k q hq
    simp only [preyRS, List.mem_append] at hq
    rcases hq with (h1 | h2) | h3
    · split_ifs at h1 <;>
        simp only [List.mem_singleton, List.not_mem_nil] at h1
      left
      rw [h1]
      exact le_max_left _ _
    · split_ifs at h2 <;>
        simp only [List.mem_singleton, List.not_mem_nil] at h2 <;>
        (right; exact ⟨p, List.mem_cons_self p rest, by rw [h2]⟩)
    · rcases ih _ _ h3 with hl | ⟨p2, hp2, he⟩
      · exact Or.inl hl
      · exact Or.inr ⟨p2, List.mem_cons_of_mem _ hp2, he⟩

/-- Every individual produced by the predator reproduction/survival stage
is either a fresh child, whose efficiency is clamped to at least 0.05, or
carries the efficiency of some incoming predator. -/
theorem predRS_mem (u : RStream) (t m : ℚ) :
    ∀ (l : List Individual) (k : ℕ) (q : Individual),
      q ∈ (predRS u t m l k).1 →
      (0.05 : ℚ) ≤ q.efficiency ∨ ∃ p ∈ l, q.efficiency = p.efficiency := by
  intro l
  induction l with
  | nil => intro k q hq; simp [predRS] at hq
  | cons p rest ih =>
    intro k q hq
    simp only [predRS, List.mem_append] at hq
    rcases hq with (h1 | h2) | h3
    · split_ifs at h1 <;>
        simp only [List.mem_singleton, List.not_mem_nil] at h1
      left
      rw [h1]
      exact le_max_left _ _
    · split_ifs at h2 <;>
        simp only [List.mem_singleton, List.not_mem_nil] at h2 <;>
        (right; exact ⟨p, List.mem_cons_self p rest, by rw [h2]⟩)
    · rcases ih _ _ h3 with hl | ⟨p2, hp2, he⟩
      · exact Or.inl hl
      · exact Or.inr ⟨p2, List.mem_cons_of_mem _ hp2, he⟩

/-- Seeded individuals have efficiency 0.6 + 0.4 * u, at least 0.05 for
unit-interval draws. -/
theorem seedPop_eff (u : RStream) (e : ℚ) (hu : ∀ n, 0 ≤ u n) :
    ∀ (n k : ℕ) (q : Individual), q ∈ (seedPop u e n k).1 → (0.05 : ℚ) ≤ q.efficiency := by
  intro n
  induction n with
  | zero => intro k q hq; simp [seedPop] at hq
  | succ m ih =>
    intro k q hq
    simp only [seedPop, List.mem_cons] at hq
    rcases hq with heq | hq
    · rw [heq]
      show (0.05 : ℚ) ≤ uniformOf 0.6 1 (u k)
      unfold uniformOf
      have := hu k
      nlinarith
    · exact ih _ _ hq

/-- The daily stages preserve the efficiency floor 0.05 on both
populations. -/
theorem stages_effOK (cfg : Config) (u : RStream) (sinD : ℕ → ℚ) (day : ℕ) (s : SimSt)
    (hp : ∀ p ∈ s.prey, (0.05 : ℚ) ≤ p.efficiency)
    (hq : ∀ p ∈ s.predators, (0.05 : ℚ) ≤ p.efficiency) :
    (∀ p ∈ (stages cfg u sinD day s).prey, (0.05 : ℚ) ≤ p.efficiency)
  ∧ (∀ p ∈ (stages cfg u sinD day s).predators, (0.05 : ℚ) ≤ p.efficiency) := by
  constructor
  · intro q hqm
    simp only [stages] at hqm
    rcases preyRS_mem u _ _ _ _ _ hqm with h | ⟨p2, hp2, he⟩
    · exact h
    · have h3 := predation_mem_prey u _ _ _ _ _ hp2
      have h4 := mem_shuffle u _ _ _ h3
      obtain ⟨p3, hp3, he3⟩ := mem_allocate _ _ _ h4
      rw [he, he3]
      exact hp p3 hp3
  · intro q hqm
    simp only [stages] at hqm
    rcases predRS_mem u _ _ _ _ _ hqm with h | ⟨p2, hp2, he⟩
    · exact h
    · obtain ⟨p3, hp3, he3⟩ := predation_mem_preds u _ _ _ _ _ hp2
      have h4 := mem_shuffle u _ _ _ hp3
      rw [he, he3]
      exact hq _ h4

/-- The efficiency floor 0.05 holds on both populations at the start of
every day, for unit-interval draws. -/
theorem stateAfter_effOK (cfg : Config) (u : RStream) (sinD : ℕ → ℚ)
    (hu : ∀ m, 0 ≤ u m) :
    ∀ n, (∀ p ∈ (stateAfter cfg u sinD n).prey, (0.05 : ℚ) ≤ p.efficiency)
       ∧ (∀ p ∈ (stateAfter cfg u sinD n).predators, (0.05 : ℚ) ≤ p.efficiency) := by
  intro n
  induction n with
  | zero =>
    constructor
    · intro p hp
      simp only [stateAfter, initSt] at hp
      exact seedPop_eff u 1 hu _ _ p hp
    · intro p hp
      simp only [stateAfter, initSt] at hp
      exact seedPop_eff u 2 hu _ _ p hp
  | succ m ih =>
    constructor
    · intro p hp
      simp only [stateAfter, capSt] at hp
      have hp2 : p ∈ (stages cfg u sinD m (stateAfter cfg u sinD m)).prey := by
        split at hp
        · exact List.mem_of_mem_take hp
        · exact hp
      exact (stages_effOK cfg u sinD m _ ih.1 ih.2).1 p hp2
    · intro p hp
      simp only [stateAfter, capSt] at hp
      have hp2 : p ∈ (stages cfg u sinD m (stateAfter cfg u sinD m)).predators := by
        split at hp
        · exact List.mem_of_mem_take hp
        · exact hp
      exact (stages_effOK cfg u sinD m _ ih.1 ih.2).2 p hp2

/-- Average efficiency of a population whose members respect the 0.05
floor is non-negative. -/
theorem avgEff_nonneg (l : List Individual)
    (h : ∀ p ∈ l, (0.05 : ℚ) ≤ p.efficiency) : 0 ≤ avgEff l := by
  unfold avgEff
  apply div_nonneg
  · apply List.sum_nonneg
    intro x hx
    simp only [List.mem_map] at hx
    obtain ⟨p, hp, rfl⟩ := hx
    linarith [h p hp]
  · split
    · norm_num
    · positivity

/-- Average efficiency of an empty population is zero. -/
theorem avgEff_of_empty (l : List Individual) (h : l.length = 0) : avgEff l = 0 := by
  rw [List.length_eq_zero] at h
  subst h
  simp [avgEff]

/-- Amendment of claim C7: the recorded average efficiencies are always
non-negative (individual efficiency never drops below the clamp 0.05), and
are exactly 0 on a day where the respective recorded population is empty
(sum 0 divided by count floored to 1). The upper bound 1 of the original
claim fails because a mutation can push a child above 1, as the
counterexample shows. -/
theorem run_sim_avg_eff_nonneg (cfg : Config) (u : RStream) (sinD : ℕ → ℚ)
    (hu : ∀ m, 0 ≤ u m) (n : ℕ) :
    0 ≤ (rowAt cfg u sinD n).prey_avg_eff
  ∧ 0 ≤ (rowAt cfg u sinD n).pred_avg_eff
  ∧ ((rowAt cfg u sinD n).prey_count = 0 → (rowAt cfg u sinD n).prey_avg_eff = 0)
  ∧ ((rowAt cfg u sinD n).pred_count = 0 → (rowAt cfg u sinD n).pred_avg_eff = 0) := by
  have hst := stateAfter_effOK cfg u sinD hu n
  have hstg := stages_effOK cfg u sinD n _ hst.1 hst.2
  exact ⟨avgEff_nonneg _ hstg.1, avgEff_nonneg _ hstg.2,
    fun h0 => avgEff_of_empty _ h0, fun h0 => avgEff_of_empty _ h0⟩

/-- Witness for the amended C7 on day zero of a concrete run. -/
theorem run_sim_avg_eff_nonneg_witness :
    0 ≤ (rowAt cfgTiny zeroStream sinZero 0).prey_avg_eff
  ∧ 0 ≤ (rowAt cfgTiny zeroStream sinZero 0).pred_avg_eff
  ∧ ((rowAt cfgTiny zeroStream sinZero 0).prey_count = 0 →
      (rowAt cfgTiny zeroStream sinZero 0).prey_avg_eff = 0)
  ∧ ((rowAt cfgTiny zeroStream sinZero 0).pred_count = 0 →
      (rowAt cfgTiny zeroStream sinZero 0).pred_avg_eff = 0) :=
  run_sim_avg_eff_nonneg cfgTiny zeroStream sinZero (fun _ => le_refl 0) 0

/-- Allocation of an empty prey list is the empty list. -/
theorem allocate_nil (a : ℚ) : allocate a [] = [] := rfl

/-- Shuffling an empty list is the identity and consumes no draw. -/
theorem shuffle_nil (u : RStream) (k : ℕ) : shuffle u ([] : List Individual) k = ([], k) := rfl

/-- With no prey the predation loop stops at its first iteration: the
predator list is returned unchanged, no draw is consumed. -/
theorem predation_no_prey (u : RStream) (pc : ℚ) (preds : List Individual) (k : ℕ) :
    predation u pc preds [] k = (preds, [], k) := by
  cases preds <;> rfl

/-- The prey reproduction/survival stage of an empty list is empty. -/
theorem preyRS_nil (u : RStream) (t m : ℚ) (k : ℕ) : preyRS u t m [] k = ([], k) := rfl

/-- A day of stages starting from an empty prey list ends with an empty
prey list: no stage creates a prey individual out of nothing. -/
theorem stages_prey_nil (cfg : Config) (u : RStream) (sinD : ℕ → ℚ) (day : ℕ)
    (s : SimSt) (h : s.prey = []) : (stages cfg u sinD day s).prey = [] := by
  simp only [stages, h, allocate_nil, shuffle_nil, predation_no_prey, preyRS_nil]

/-- With init_prey = 0 the prey list is empty at the start of every day. -/
theorem stateAfter_prey_nil (cfg : Config) (u : RStream) (sinD : ℕ → ℚ)
    (h : cfg.init_prey = 0) : ∀ n, (stateAfter cfg u sinD n).prey = [] := by
  intro n
  induction n with
  | zero =>
    simp [stateAfter, initSt, h, seedPop]
  | succ m ih =>
    have hs := stages_prey_nil cfg u sinD m _ ih
    simp [stateAfter, capSt, hs]

/-- Claim C8: with init_prey = 0 the recorded prey_count is 0 on every day
of the run, no stage ever adds a prey individual to an empty prey
population, and the run still covers all the days (day sequence complete,
no early termination on extinction). -/
theorem run_sim_no_spontaneous_prey (cfg : Config) (u : RStream) (sinD : ℕ → ℚ)
    (h : cfg.init_prey = 0) :
    (run_sim cfg u sinD).prey_count = List.replicate cfg.days.toNat 0
  ∧ (run_sim cfg u sinD).day = List.range cfg.days.toNat := by
  constructor
  · have hz : ∀ n, (rowAt cfg u sinD n).prey_count = 0 := by
      intro n
      show (stages cfg u sinD n (stateAfter cfg u sinD n)).prey.length = 0
      rw [stages_prey_nil cfg u sinD n _ (stateAfter_prey_nil cfg u sinD h n)]
      rfl
    apply List.eq_replicate_iff.mpr
    constructor
    · simp [run_sim, historyOf]
    · intro b hb
      simp only [run_sim, historyOf, List.map_map, List.mem_map] at hb
      obtain ⟨n, _, rfl⟩ := hb
      exact hz n
  · exact run_sim_day_eq cfg u sinD

/-- Witness for C8 at a concrete configuration with no initial prey. -/
theorem run_sim_no_spontaneous_prey_witness :
    (run_sim cfgTiny zeroStream sinZero).prey_count = List.replicate cfgTiny.days.toNat 0
  ∧ (run_sim cfgTiny zeroStream sinZero).day = List.range cfgTiny.days.toNat :=
  run_sim_no_spontaneous_prey cfgTiny zeroStream sinZero rfl

/-- Indexing the zip of a list with its own map picks the pair at that
index. -/
theorem zip_map_get (l : List Individual) (g : Individual → ℚ) (i : ℕ) :
    (l.zip (l.map g)).get? i = (l.get? i).map (fun p => (p, g p)) := by
  induction l generalizing i with
  | nil => simp
  | cons a tl ih =>
    cases i with
    | zero => rfl
    | succ j => exact ih j

/-- Allocation changes no list length. -/
theorem allocate_length (a : ℚ) (l : List Individual) :
    (allocate a l).length = l.length := by
  unfold allocate
  split
  · rfl
  · simp [List.length_zip]

/-- Claim C9: the allocation stage distributes available_to_prey =
min(resource, prey_need) with prey_need = sum of
prey_consumption * (0.5 + efficiency); the prey at index i keeps its
efficiency and gains energy available * (share / total_shares) *
efficiency * 0.1 with share = 0.5 + efficiency; and the later resource
update subtracts exactly the available amount, never the full demand,
the max(0, ...) floor being inert because min(resource, need) never
exceeds resource. -/
theorem run_sim_allocation_spec (cfg : Config) (s : SimSt)
    (hne : s.prey ≠ [])
    (hs : (s.prey.map (fun p => 0.5 + p.efficiency)).sum ≠ 0)
    (i : ℕ) (hi : i < s.prey.length) :
    (allocate (min s.resource (preyNeed cfg.prey_consumption s.prey)) s.prey).length
      = s.prey.length
  ∧ (allocate (min s.resource (preyNeed cfg.prey_consumption s.prey)) s.prey).get? i
      = some
        { energy :=
            (s.prey.get ⟨i, hi⟩).energy
              + min s.resource (preyNeed cfg.prey_consumption s.prey)
                * ((0.5 + (s.prey.get ⟨i, hi⟩).efficiency)
                   / (s.prey.map (fun p => 0.5 + p.efficiency)).sum)
                * (s.prey.get ⟨i, hi⟩).efficiency * 0.1,
          efficiency := (s.prey.get ⟨i, hi⟩).efficiency }
  ∧ resourceUpdate s.resource (min s.resource (preyNeed cfg.prey_consumption s.prey))
        cfg.resource_regen
      = s.resource - min s.resource (preyNeed cfg.prey_consumption s.prey)
        + cfg.resource_regen := by
  have hni : s.prey.isEmpty = false := List.isEmpty_eq_false.mpr hne
  refine ⟨allocate_length _ _, ?_, ?_⟩
  · unfold allocate
    rw [if_neg (by simp [hni])]
    simp only [List.get?_map, zip_map_get, List.get?_eq_get hi, Option.map_some, hs,
      if_neg hs]
    simp
  · unfold resourceUpdate
    rw [max_eq_right (sub_nonneg.mpr (min_le_left _ _))]

/-- Witness for C9 on a concrete one-prey state under the default
configuration. -/
theorem run_sim_allocation_spec_witness :
    (allocate (min stOnePrey.resource (preyNeed cfgDefault.prey_consumption stOnePrey.prey)) stOnePrey.prey).length
      = stOnePrey.prey.length
  ∧ (allocate (min stOnePrey.resource (preyNeed cfgDefault.prey_consumption stOnePrey.prey)) stOnePrey.prey).get? 0
      = some
        { energy :=
            (stOnePrey.prey.get ⟨0, by norm_num [stOnePrey]⟩).energy
              + min stOnePrey.resource (preyNeed cfgDefault.prey_consumption stOnePrey.prey)
                * ((0.5 + (stOnePrey.prey.get ⟨0, by norm_num [stOnePrey]⟩).efficiency)
                   / (stOnePrey.prey.map (fun p => 0.5 + p.efficiency)).sum)
                * (stOnePrey.prey.get ⟨0, by norm_num [stOnePrey]⟩).efficiency * 0.1,
          efficiency := (stOnePrey.prey.get ⟨0, by norm_num [stOnePrey]⟩).efficiency }
  ∧ resourceUpdate stOnePrey.resource
        (min stOnePrey.resource (preyNeed cfgDefault.prey_consumption stOnePrey.prey))
        cfgDefault.resource_regen
      = stOnePrey.resource - min stOnePrey.resource (preyNeed cfgDefault.prey_consumption stOnePrey.prey)
        + cfgDefault.resource_regen :=
  run_sim_allocation_spec cfgDefault stOnePrey (by simp [stOnePrey])
    (by norm_num [stOnePrey]) 0 (by norm_num [stOnePrey])
